import Mathlib

/-!  Verification of the jetcheck Flight Listing Query Engine and time utilities.

Shallow embedding of `src/frontend/utils/time.ts` and the query pipeline of the
main listing page (`baseFlights` / facet options / `filtered` / `sorted` /
pagination).  Machine time is modelled in integer seconds since the Unix epoch
(the code works in milliseconds; no verified property depends on sub-second
granularity).  A timezone is modelled by its UTC-offset function
(seconds east of UTC, possibly depending on the instant, as for IANA zones
with daylight-saving transitions); the system default timezone used by
ECMAScript `new Date(string)` for offset-free date-time strings is modelled as
a fixed offset `sysOff`. -/

/-- Helper modelling ECMAScript `ts.replace(" ", "T")` (string pattern form),
which replaces only the first occurrence of a space. -/
def replaceFirstSpace : List Char → List Char
  | [] => []
  | c :: cs => if c = ' ' then 'T' :: cs else c :: replaceFirstSpace cs

/-- Days since the Unix epoch (1970-01-01) of the proleptic Gregorian civil
date `(y, m, d)`; standard civil-from-days algorithm, with `Int.ediv`
(floor division) playing the role of the truncating-division idiom used in
the usual C formulation (the two agree on the values reached here). -/
def daysFromCivil (y m d : Int) : Int :=
  let y2 := if m ≤ 2 then y - 1 else y
  let era := Int.ediv y2 400
  let yoe := y2 - era * 400
  let mp := Int.emod (m + 9) 12
  let doy := Int.ediv (153 * mp + 2) 5 + d - 1
  let doe := yoe * 365 + Int.ediv yoe 4 - Int.ediv yoe 100 + doy
  era * 146097 + doe - 719468

/-- Inverse of `daysFromCivil`: the civil date `(y, m, d)` of a day count
since the Unix epoch. -/
def civilFromDays (z0 : Int) : Int × Int × Int :=
  let z := z0 + 719468
  let era := Int.ediv z 146097
  let doe := z - era * 146097
  let yoe := Int.ediv (doe - Int.ediv doe 1460 + Int.ediv doe 36524 - Int.ediv doe 146096) 365
  let y := yoe + era * 400
  let doy := doe - (365 * yoe + Int.ediv yoe 4 - Int.ediv yoe 100)
  let mp := Int.ediv (5 * doy + 2) 153
  let d := doy - Int.ediv (153 * mp + 2) 5 + 1
  let m := mp + (if mp < 10 then 3 else -9)
  (if m ≤ 2 then y + 1 else y, m, d)

/-- Two-digit zero padding used by `Intl` "2-digit" fields. -/
def pad2 (n : Int) : String :=
  (if 0 ≤ n ∧ n < 10 then "0" else "") ++ toString n

/-- Models `new Intl.DateTimeFormat("en-CA", { timeZone: tz, year: "numeric",
month: "2-digit", day: "2-digit" }).format(x)`: the "YYYY-MM-DD" civil date of
instant `t` (epoch seconds) in the zone with offset function `tz` (seconds
east of UTC, resolved at `t`). -/
def ymdString (tz : Int → Int) (t : Int) : String :=
  let loc := t + tz t
  let c := civilFromDays (Int.ediv loc 86400)
  toString c.1 ++ "-" ++ pad2 c.2.1 ++ "-" ++ pad2 c.2.2

/-- Index of the civil calendar day of instant `t` in zone `tz`:
days since the epoch of the local civil date. -/
def localDayIdx (tz : Int → Int) (t : Int) : Int :=
  Int.ediv (t + tz t) 86400

/-- Numeric value of a decimal digit character, `none` otherwise. -/
def digitVal (c : Char) : Option Nat :=
  if c.isDigit then some (c.toNat - 48) else none

/-- Parse exactly two decimal digits. -/
def take2 : List Char → Option (Nat × List Char)
  | a :: b :: rest => do
      let x ← digitVal a
      let y ← digitVal b
      pure (10 * x + y, rest)
  | _ => none

/-- Parse exactly four decimal digits. -/
def take4 : List Char → Option (Nat × List Char)
  | a :: b :: c :: d :: rest => do
      let x ← digitVal a
      let y ← digitVal b
      let z ← digitVal c
      let w ← digitVal d
      pure (1000 * x + 100 * y + 10 * z + w, rest)
  | _ => none

/-- Consume one expected character. -/
def expectChar (c : Char) : List Char → Option (List Char)
  | x :: rest => if x = c then some rest else none
  | [] => none

/-- Gregorian leap-year test. -/
def isLeap (y : Nat) : Bool :=
  (y % 4 == 0 && y % 100 != 0) || y % 400 == 0

/-- Days in a month, used by the ECMAScript date validator
(engines reject e.g. "2025-02-30" as an invalid Date). -/
def daysInMonth (y m : Nat) : Nat :=
  if m = 2 then (if isLeap y then 29 else 28)
  else if m = 4 ∨ m = 6 ∨ m = 9 ∨ m = 11 then 30 else 31

/-- Parse the time-of-day part "HH:MM" or "HH:MM:SS" of the ECMAScript Date
Time String Format, returning seconds into the day and the remaining input.
(Fractional ".sss" seconds are not modelled; no input in this repository
carries them.) -/
def parseHMS (cs : List Char) : Option (Nat × List Char) := do
  let (h, cs) ← take2 cs
  let cs ← expectChar ':' cs
  let (mi, cs) ← take2 cs
  match cs with
  | ':' :: cs2 => do
      let (s, cs3) ← take2 cs2
      if h ≤ 23 ∧ mi ≤ 59 ∧ s ≤ 59 then pure (h * 3600 + mi * 60 + s, cs3) else none
  | _ => if h ≤ 23 ∧ mi ≤ 59 then pure (h * 3600 + mi * 60, cs) else none

/-- Parse a trailing UTC-offset designator: "Z", "+HH:MM", "-HH:MM", and the
lenient engine-accepted "+HH" / "+HHMM" forms (PostgreSQL emits "+00").
Returns the offset in seconds east of UTC. -/
def parseOffsetTail : List Char → Option Int
  | ['Z'] => some 0
  | sgn :: rest =>
      if sgn = '+' ∨ sgn = '-' then do
        let (oh, rest2) ← take2 rest
        let om ← (match rest2 with
          | [] => some 0
          | ':' :: r2 => do
              let (om, r3) ← take2 r2
              if r3 = [] then some om else none
          | _ => do
              let (om, r3) ← take2 rest2
              if r3 = [] then some om else none)
        if oh ≤ 23 ∧ om ≤ 59 then
          some ((if sgn = '+' then 1 else -1) * ((oh : Int) * 3600 + om * 60))
        else none
      else none
  | [] => none

/-- Syntactic decomposition of an ECMAScript Date Time String Format input:
returns the civil seconds-since-epoch reading of the date-time digits and the
explicit offset when one is present (`some 0` for a bare date, which the
standard interprets as UTC; `none` for an offset-free date-time, which the
standard interprets as local time).  Strings outside the modelled grammar
(which engines would reject as an invalid Date) yield `none`. -/
def jsSplit (s : String) : Option (Int × Option Int) := do
  let cs := s.data
  let (y, cs) ← take4 cs
  let cs ← expectChar '-' cs
  let (mo, cs) ← take2 cs
  let cs ← expectChar '-' cs
  let (d, cs) ← take2 cs
  if 1 ≤ mo ∧ mo ≤ 12 ∧ 1 ≤ d ∧ d ≤ daysInMonth y mo then
    let dateSecs : Int := daysFromCivil (y : Int) (mo : Int) (d : Int) * 86400
    match cs with
    | [] => pure (dateSecs, some 0)
    | 'T' :: rest => do
        let (tod, rest2) ← parseHMS rest
        let civil := dateSecs + (tod : Int)
        match rest2 with
        | [] => pure (civil, none)
        | _ => do
            let off ← parseOffsetTail rest2
            pure (civil, some off)
    | _ => none
  else none

/-- Models `new Date(s).getTime()` (in seconds): `none` models an invalid
Date (NaN time value).  An explicit offset fixes the instant; an offset-free
date-time is interpreted in the system default timezone, modelled by the
fixed offset `sysOff` (seconds east of UTC). -/
def jsDateParse (sysOff : Int) (s : String) : Option Int :=
  (jsSplit s).map (fun p => p.1 - p.2.getD sysOff)

/-- Embedding of `parsePgTimestamptz` (utils/time.ts): replace the first
space by "T", then ECMAScript-parse the result. -/
def parsePgTimestamptz (sysOff : Int) (ts : String) : Option Int :=
  jsDateParse sysOff (String.mk (replaceFirstSpace ts.data))

/-- Embedding of `formatLocal` (utils/time.ts): parse, then
`Intl.DateTimeFormat(...).format(d)`.  `Intl.format` throws a RangeError on
an invalid Date, modelled by `none`; for a valid date it returns a
locale-dependent nonempty rendering, modelled here by the civil date string
(only the valid/throw distinction and nonemptiness matter to the claims). -/
def formatLocal (tz : Int → Int) (sysOff : Int) (ts : String) : Option String :=
  (parsePgTimestamptz sysOff ts).map (fun t => ymdString tz t)

/-- Embedding of `dayLabel` (utils/time.ts): compare the en-CA civil date of
the parsed instant with those of `now` and `now + 24h`, all rendered in the
same zone `tz`.  A parse failure makes `ymd(d)` — that is,
`Intl.DateTimeFormat(...).format` on an invalid Date — throw a RangeError,
modelled by `none`. -/
def dayLabel (tz : Int → Int) (sysOff now : Int) (ts : String) : Option String :=
  match parsePgTimestamptz sysOff ts with
  | none => none
  | some t =>
      let today := ymdString tz now
      let tomorrow := ymdString tz (now + 86400)
      let dateStr := ymdString tz t
      some (if dateStr = today then "Today"
            else if dateStr = tomorrow then "Tomorrow"
            else "Upcoming")

/-- ECMAScript white space trimmed by `Number(string)` (the forms occurring
here). -/
def isJsSpace (c : Char) : Bool :=
  c = ' ' ∨ c = '\t' ∨ c = '\n' ∨ c = '\r'

/-- Trim leading and trailing JS white space. -/
def trimJs (cs : List Char) : List Char :=
  ((cs.dropWhile isJsSpace).reverse.dropWhile isJsSpace).reverse

/-- Value of a nonempty all-digit character list. -/
def digitsToNat (cs : List Char) : Option Nat :=
  match cs with
  | [] => none
  | _ => cs.foldl (fun acc c => acc.bind (fun a => (digitVal c).map (fun d => a * 10 + d)))
      (some 0)

/-- Split a character list at the first dot. -/
def splitAtDot : List Char → List Char × Option (List Char)
  | [] => ([], none)
  | c :: rest =>
      if c = '.' then ([], some rest)
      else
        let r := splitAtDot rest
        (c :: r.1, r.2)

/-- Unsigned decimal numeral "123", "123.", "123.45", ".45" (the ECMAScript
StrUnsignedDecimalLiteral without exponent; no input here uses exponents or
hex forms). -/
def parseUnsignedDec (cs : List Char) : Option ℚ :=
  match splitAtDot cs with
  | (intPart, none) => (digitsToNat intPart).map (fun n => (n : ℚ))
  | (intPart, some fracPart) =>
      if intPart = [] ∧ fracPart = [] then none
      else do
        let i ← if intPart = [] then some 0 else digitsToNat intPart
        let fr ← if fracPart = [] then some 0 else digitsToNat fracPart
        pure ((i : ℚ) + (fr : ℚ) / ((10 : ℚ) ^ fracPart.length))

/-- Result of ECMAScript `Number(string)`: NaN, positive or negative
Infinity, or a finite value. -/
inductive JsNum
  | nan
  | posinf
  | neginf
  | fin (q : ℚ)
deriving DecidableEq

/-- Models `Number(s)` for a string: trim; empty means 0; optional sign;
"Infinity" or a decimal numeral; everything else is NaN. -/
def jsNumber (s : String) : JsNum :=
  let cs := trimJs s.data
  if cs = [] then .fin 0
  else
    let p : Bool × List Char :=
      match cs with
      | '+' :: r => (true, r)
      | '-' :: r => (false, r)
      | _ => (true, cs)
    if p.2 = "Infinity".data then (if p.1 then .posinf else .neginf)
    else
      match parseUnsignedDec p.2 with
      | some q => .fin (if p.1 then q else -q)
      | none => .nan

/-- ASCII lower-casing of one character.  JS `toLowerCase` agrees with this
on the ASCII data occurring here; implemented character-wise so that the
kernel can evaluate it. -/
def asciiLower (c : Char) : Char :=
  if 65 ≤ c.toNat ∧ c.toNat ≤ 90 then Char.ofNat (c.toNat + 32) else c

/-- ASCII upper-casing of one character (JS `toUpperCase` on ASCII data). -/
def asciiUpper (c : Char) : Char :=
  if 97 ≤ c.toNat ∧ c.toNat ≤ 122 then Char.ofNat (c.toNat - 32) else c

/-- Models `s.toLowerCase()`. -/
def strLower (s : String) : String :=
  String.mk (s.data.map asciiLower)

/-- Models `s.toUpperCase()`. -/
def strUpper (s : String) : String :=
  String.mk (s.data.map asciiUpper)

/-- Models `s.slice(0, n)` on strings. -/
def strTake (s : String) (n : Nat) : String :=
  String.mk (s.data.take n)

/-- JS `<` on strings: lexicographic comparison of code units (all data here
is ASCII, where code units and code points agree). -/
def lexLtChars : List Char → List Char → Bool
  | [], [] => false
  | [], _ :: _ => true
  | _ :: _, [] => false
  | a :: as, b :: bs => if a = b then lexLtChars as bs else decide (a < b)

/-- JS `<` on strings, packaged. -/
def strLt (a b : String) : Bool :=
  lexLtChars a.data b.data

/-- Runtime value found in the `price_current` / `price_normal` fields.  The
TypeScript annotation says `number | null`, but the records come from an
unvalidated JSON API, so strings and null/undefined occur; `num` is a finite
JS number, `nonfinite` a JS number failing `Number.isFinite` (NaN or
±Infinity), `null` covers both null and undefined (indistinguishable in
every use below). -/
inductive PriceVal
  | num (q : ℚ)
  | nonfinite
  | str (s : String)
  | null
deriving DecidableEq

/-- Effective price: a finite amount or +Infinity. -/
inductive EPrice
  | inf
  | fin (q : ℚ)
deriving DecidableEq

/-- Order embedding of `EPrice` used to compare effective prices. -/
def EPrice.toWT : EPrice → WithTop ℚ
  | .inf => ⊤
  | .fin q => (q : WithTop ℚ)

/-- Embedding of `priceToNumber` (listing page): take `pCurrent` when it has
number type, else `pNormal` when it has number type, else NaN; then map any
non-finite value to +Infinity. -/
def priceToNumber (pCurrent pNormal : PriceVal) : EPrice :=
  match pCurrent with
  | .num q => .fin q
  | .nonfinite => .inf
  | _ =>
      match pNormal with
      | .num q => .fin q
      | .nonfinite => .inf
      | _ => .inf

/-- JS `p > max` for an effective price `p` (finite or +Infinity, never NaN
or -Infinity) against the parsed max-price number. -/
def gtNum (p : EPrice) : JsNum → Bool
  | .nan => false
  | .posinf => false
  | .neginf => true
  | .fin m => decide ((m : WithTop ℚ) < p.toWT)

/-- Canonical flight record (the `Flight` type of the listing page).  Field
defaults are a construction convenience only. -/
structure Flight where
  id : String := ""
  source : Option String := none
  origin_iata : Option String := none
  origin_name : Option String := none
  origin_tz : Option String := none
  destination_iata : Option String := none
  destination_name : Option String := none
  destination_tz : Option String := none
  departure_ts : Option String := none
  arrival_ts : Option String := none
  aircraft : Option String := none
  link_latest : Option String := none
  currency_effective : Option String := none
  price_current : PriceVal := .null
  price_normal : PriceVal := .null
  discount_percent : PriceVal := .null
  status : Option String := none
  status_latest : Option String := none
  last_seen_at : Option String := none
  probability : PriceVal := .null
deriving DecidableEq

/-- JS `x || d` for a nullable string `x`: falls back on null, undefined and
the empty string. -/
def jsOr (x : Option String) (d : String) : String :=
  let s := x.getD ""
  if s = "" then d else s

/-- The status expression repeated throughout the listing page:
`String(f.status_latest ?? f.status ?? "").toLowerCase()`.  Nullish
coalescing keeps a present-but-empty `status_latest`. -/
def effStatus (f : Flight) : String :=
  strLower ((f.status_latest.or f.status).getD "")

/-- Embedding of `baseFlights`: always hide records whose effective status is
"unavailable". -/
def baseFlights (flights : List Flight) : List Flight :=
  flights.filter (fun f => effStatus f != "unavailable")

/-- User-selected filter state of the listing page (all plain strings, empty
means unset). -/
structure FilterState where
  status : String := ""
  «from» : String := ""
  «to» : String := ""
  date : String := ""
  maxPrice : String := ""
  aircraft : String := ""
deriving DecidableEq

/-- Departed-flight exclusion: `depMs = f.departure_ts ? new
Date(f.departure_ts).getTime() : 0; if (depMs && depMs < Date.now()) return
false`.  NaN and 0 are falsy, so an unparseable or missing timestamp never
excludes. -/
def departedCheck (sysOff now : Int) (f : Flight) : Bool :=
  match f.departure_ts with
  | none => false
  | some ts =>
      if ts = "" then false
      else
        match jsDateParse sysOff ts with
        | none => false
        | some t => (t != 0) && decide (t < now)

/-- Status filter clause: exclude when a status is selected and the effective
status differs (case-insensitively). -/
def statusCheck (status : String) (f : Flight) : Bool :=
  (status != "") && (effStatus f != strLower status)

/-- Origin filter clause: exact uppercase IATA comparison. -/
def fromCheck (fromSel : String) (f : Flight) : Bool :=
  (fromSel != "") && (strUpper (f.origin_iata.getD "") != strUpper fromSel)

/-- Destination filter clause: exact uppercase IATA comparison. -/
def toCheck (toSel : String) (f : Flight) : Bool :=
  (toSel != "") && (strUpper (f.destination_iata.getD "") != strUpper toSel)

/-- Date filter clause: compare the selected day against the first ten
characters of the raw departure timestamp. -/
def dateCheck (date : String) (f : Flight) : Bool :=
  (date != "") && (strTake (f.departure_ts.getD "") 10 != date)

/-- Max-price filter clause: `if (maxPrice) { const max = Number(maxPrice);
if (!Number.isNaN(max)) { if (p > max) return false } }`.  Only NaN disables
the clause; ±Infinity pass the guard. -/
def maxPriceCheck (maxPrice : String) (f : Flight) : Bool :=
  (maxPrice != "") &&
    (match jsNumber maxPrice with
     | .nan => false
     | v => gtNum (priceToNumber f.price_current f.price_normal) v)

/-- Aircraft filter clause: exact string equality against
`String(f.aircraft || "")`. -/
def aircraftCheck (aircraft : String) (f : Flight) : Bool :=
  (aircraft != "") && ((f.aircraft.getD "") != aircraft)

/-- Embedding of the `filtered` predicate of the listing page: the
conjunction of the negated early-return exclusions, in source order. -/
def matchesFilters (sysOff now : Int) (st : FilterState) (f : Flight) : Bool :=
  !departedCheck sysOff now f
    && !statusCheck st.status f
    && !fromCheck st.«from» f
    && !toCheck st.«to» f
    && !dateCheck st.date f
    && !maxPriceCheck st.maxPrice f
    && !aircraftCheck st.aircraft f

/-- `filtered` applied to the base list. -/
def filteredFlights (sysOff now : Int) (st : FilterState) (flights : List Flight) :
    List Flight :=
  (baseFlights flights).filter (matchesFilters sysOff now st)

/-- Sort key of the listing page. -/
inductive SortKey
  | departure
  | price
  | seen
deriving DecidableEq

/-- Sort direction of the listing page. -/
inductive SortDir
  | asc
  | desc
deriving DecidableEq

/-- The union type of the comparator variables `A`, `B` in the listing page:
a number for the price key, a string for the departure and seen keys. -/
inductive SortVal
  | num (p : EPrice)
  | str (s : String)
deriving DecidableEq

/-- Key extraction of the `sorted` comparator. -/
def sortVal (key : SortKey) (f : Flight) : SortVal :=
  match key with
  | .price => .num (priceToNumber f.price_current f.price_normal)
  | .seen => .str (f.last_seen_at.getD "")
  | .departure => .str (f.departure_ts.getD "")

/-- JS `<` on the comparator values.  A fixed key always produces two values
of the same constructor, so the mixed branches are unreachable. -/
def svLt : SortVal → SortVal → Bool
  | .num a, .num b => decide (a.toWT < b.toWT)
  | .str a, .str b => strLt a b
  | _, _ => false

/-- Embedding of the `sorted` comparator: `-1`/`1`/`0` per source, with the
direction inverting the result. -/
def jsCompare (key : SortKey) (dir : SortDir) (a b : Flight) : Int :=
  let A := sortVal key a
  let B := sortVal key b
  if svLt A B then (if dir = .asc then -1 else 1)
  else if svLt B A then (if dir = .asc then 1 else -1)
  else 0

/-- "May come before" relation realised by a stable JS `Array.prototype.sort`
with the comparator above: the comparator does not order `a` strictly after
`b`. -/
def sortRel (key : SortKey) (dir : SortDir) (a b : Flight) : Prop :=
  jsCompare key dir a b ≤ 0

instance (key : SortKey) (dir : SortDir) : DecidableRel (sortRel key dir) :=
  fun a b => inferInstanceAs (Decidable (jsCompare key dir a b ≤ 0))

/-- Embedding of `sorted`: stable sort of the filtered list by the
comparator (ECMAScript sort is stable; insertion sort realises the same
output for a consistent comparator). -/
def sortedFlights (key : SortKey) (dir : SortDir) (l : List Flight) : List Flight :=
  List.insertionSort (sortRel key dir) l

/-- Resolution of one relative index of `Array.prototype.slice`. -/
def jsSliceIdx (len : Nat) (k : Int) : Nat :=
  if k < 0 then ((len : Int) + k).toNat else min k.toNat len

/-- Embedding of `arr.slice(start, stop)` with JS relative-index semantics
(negative indices count from the end, results clamped to the array). -/
def jsSlice {α : Type} (l : List α) (start stop : Int) : List α :=
  (l.take (jsSliceIdx l.length stop)).drop (jsSliceIdx l.length start)

/-- The fixed page size of the listing page. -/
def pageSize : Nat := 12

/-- Embedding of `totalPages = Math.max(1, Math.ceil(total / pageSize))`. -/
def totalPagesOf (total : Nat) : Nat :=
  max 1 ((total + pageSize - 1) / pageSize)

/-- Embedding of `currentPage = Math.min(page, totalPages)` (note: no lower
clamp). -/
def currentPageOf (page : Int) (tp : Nat) : Int :=
  min page (tp : Int)

/-- Embedding of `pageItems`: slice the sorted list at the clamped page. -/
def pageItemsOf (l : List Flight) (page : Int) : List Flight :=
  let cp := currentPageOf page (totalPagesOf l.length)
  jsSlice l ((cp - 1) * (pageSize : Int)) ((cp - 1) * (pageSize : Int) + (pageSize : Int))

/-- The visible page of the listing: base exclusion, filtering, sorting,
pagination composed as on the page. -/
def pageItemsRun (sysOff now : Int) (st : FilterState) (key : SortKey) (dir : SortDir)
    (page : Int) (flights : List Flight) : List Flight :=
  pageItemsOf (sortedFlights key dir (filteredFlights sysOff now st flights)) page

/-- Dropdown option `{ value, label }` of the listing page (named
`FacetOption` here because `Option` is taken in Lean). -/
structure FacetOption where
  value : String
  label : String
deriving DecidableEq

/-- Candidate `(code, label)` pairs of the departure-options loop, in
iteration order, before Map deduplication: skip an empty code, a
destination-filter mismatch, and a status mismatch. -/
def optCollectDep (toSel status : String) : List Flight → List (String × String)
  | [] => []
  | f :: rest =>
      let code := strUpper (f.origin_iata.getD "")
      if code = "" then optCollectDep toSel status rest
      else if (toSel != "") && (strUpper (f.destination_iata.getD "") != strUpper toSel) then
        optCollectDep toSel status rest
      else if (status != "") && (effStatus f != strLower status) then
        optCollectDep toSel status rest
      else (code, code ++ " — " ++ jsOr f.origin_name code) :: optCollectDep toSel status rest

/-- Candidate pairs of the destination-options loop (symmetric: origin
filter and status applied). -/
def optCollectDest (fromSel status : String) : List Flight → List (String × String)
  | [] => []
  | f :: rest =>
      let code := strUpper (f.destination_iata.getD "")
      if code = "" then optCollectDest fromSel status rest
      else if (fromSel != "") && (strUpper (f.origin_iata.getD "") != strUpper fromSel) then
        optCollectDest fromSel status rest
      else if (status != "") && (effStatus f != strLower status) then
        optCollectDest fromSel status rest
      else (code, code ++ " — " ++ jsOr f.destination_name code) :: optCollectDest fromSel status rest

/-- First-wins key deduplication realising `if (!m.has(code)) m.set(code,
label)` over a JS Map followed by `Array.from(m.entries())` (insertion
order). -/
def dedupKeys : List (String × String) → List String → List (String × String)
  | [], _ => []
  | p :: rest, seen =>
      if seen.contains p.1 then dedupKeys rest seen
      else p :: dedupKeys rest (p.1 :: seen)

/-- Ordering used for the final `sort((a, b) => a.label.localeCompare(
b.label))`.  `localeCompare` collation is modelled as the code-point order;
every property verified below is order-insensitive (membership only), so the
collation details are immaterial. -/
def labelRel (a b : FacetOption) : Prop :=
  strLt b.label a.label = false

instance : DecidableRel labelRel :=
  fun a b => inferInstanceAs (Decidable (strLt b.label a.label = false))

/-- Embedding of `departureOptions` (origin facet): its `useMemo` reads only
the base list, the destination selection and the status selection. -/
def departureOptions (status toSel : String) (flights : List Flight) : List FacetOption :=
  List.insertionSort labelRel
    ((dedupKeys (optCollectDep toSel status (baseFlights flights)) []).map
      (fun p => ⟨p.1, p.2⟩))

/-- Embedding of `destinationOptions` (destination facet). -/
def destinationOptions (status fromSel : String) (flights : List Flight) : List FacetOption :=
  List.insertionSort labelRel
    ((dedupKeys (optCollectDest fromSel status (baseFlights flights)) []).map
      (fun p => ⟨p.1, p.2⟩))

/-- The values column of an option list. -/
def optionValues (l : List FacetOption) : List String :=
  l.map FacetOption.value

/-- Modelled from the spec: "computing origin options applies every active
filter except the origin filter itself (so the current origin selection does
not self-exclude), including the destination filter ... Status filter
applies to both" — i.e. candidate flights must additionally pass the date,
max-price and aircraft filters.  This definition follows the spec's words
(for the refinement comparison of C6); the source applies only the
destination and status filters. -/
def specOriginOptions (st : FilterState) (flights : List Flight) : List FacetOption :=
  List.insertionSort labelRel
    ((dedupKeys
        (optCollectDep st.«to» st.status
          ((baseFlights flights).filter
            (fun f => !dateCheck st.date f && !maxPriceCheck st.maxPrice f
              && !aircraftCheck st.aircraft f)))
        []).map
      (fun p => ⟨p.1, p.2⟩))

/-- JS `typeof v === "number"` on a price field value. -/
def isNumberType : PriceVal → Bool
  | .num _ => true
  | .nonfinite => true
  | _ => false

/-- Offset function of Europe/Berlin around the daylight-saving fall-back
transition of 2025-10-26 01:00 UTC: +02:00 before, +01:00 after. -/
def tzBerlin : Int → Int :=
  fun t => if t < daysFromCivil 2025 10 26 * 86400 + 3600 then 7200 else 3600

/-- The instant 2025-10-25 22:30 UTC, which is 00:30 local time on
2025-10-26 in Europe/Berlin (a 25-hour civil day). -/
def nowFallBack : Int :=
  daysFromCivil 2025 10 25 * 86400 + 81000

/-- The instant 2025-10-27 12:00 UTC (13:00 local on 2025-10-27 in
Europe/Berlin). -/
def flightNextDay : Int :=
  daysFromCivil 2025 10 27 * 86400 + 43200

/-- Concrete flight: listed with a structured origin and a "JetA" aircraft
(C6 instances). -/
def c6f1 : Flight :=
  { origin_iata := some "AAA", destination_iata := some "ZZZ", aircraft := some "JetA" }

/-- Concrete flight: origin "BBB" with a different aircraft (C6 instances). -/
def c6f2 : Flight :=
  { origin_iata := some "BBB", destination_iata := some "ZZZ", aircraft := some "PropB" }

/-- Concrete filter state with only the aircraft filter active (C6
instances). -/
def c6st : FilterState :=
  { aircraft := "JetA" }

/-- Concrete flight with a valid departure timestamp (C7 instances). -/
def c7t : Flight :=
  { id := "t", departure_ts := some "2030-01-01T00:00:00Z" }

/-- Concrete flight with a missing departure timestamp (C7 instances). -/
def c7n : Flight :=
  { id := "n" }

/-- Concrete flight with a finite current price (C8 instances). -/
def c8f : Flight :=
  { id := "c8", price_current := .num 100 }

/-- Concrete flight whose `status_latest` says "available" while `status`
says "unavailable" (C9 instances). -/
def c9f : Flight :=
  { id := "c9", status_latest := some "available", status := some "unavailable" }

/-- Concrete flight whose price fields are a numeric string and null (C10
instances). -/
def c10f : Flight :=
  { id := "c10", price_current := .str "990" }

/-- Asymmetry of the JS string order. -/
theorem lexLtChars_asymm : ∀ (as bs : List Char),
    lexLtChars as bs = true → lexLtChars bs as = false := by
  intro as
  induction as with
  | nil =>
      intro bs h
      cases bs with
      | nil => simp [lexLtChars] at h
      | cons b bs => simp [lexLtChars]
  | cons a as ih =>
      intro bs h
      cases bs with
      | nil => simp [lexLtChars] at h
      | cons b bs =>
          by_cases hab : a = b
          · subst hab
            simp only [lexLtChars, if_pos rfl] at h ⊢
            exact ih bs h
          · have hba : ¬ b = a := fun e => hab e.symm
            simp only [lexLtChars, if_neg hab, if_neg hba, decide_eq_true_eq,
              decide_eq_false_iff_not] at h ⊢
            exact lt_asymm h

/-- Transitivity of the JS string order. -/
theorem lexLtChars_trans : ∀ (as bs cs : List Char),
    lexLtChars as bs = true → lexLtChars bs cs = true → lexLtChars as cs = true := by
  intro as
  induction as with
  | nil =>
      intro bs cs h1 h2
      cases bs with
      | nil => simp [lexLtChars] at h1
      | cons b bs =>
          cases cs with
          | nil => simp [lexLtChars] at h2
          | cons c cs => simp [lexLtChars]
  | cons a as ih =>
      intro bs cs h1 h2
      cases bs with
      | nil => simp [lexLtChars] at h1
      | cons b bs =>
          cases cs with
          | nil => simp [lexLtChars] at h2
          | cons c cs =>
              by_cases hab : a = b
              · subst hab
                simp only [lexLtChars, if_pos rfl] at h1
                by_cases hbc : a = c
                · subst hbc
                  simp only [lexLtChars, if_pos rfl] at h2 ⊢
                  exact ih bs cs h1 h2
                · simp only [lexLtChars, if_neg hbc] at h2 ⊢
                  exact h2
              · simp only [lexLtChars, if_neg hab, decide_eq_true_eq] at h1
                by_cases hbc : b = c
                · subst hbc
                  simp only [lexLtChars, if_neg hab, decide_eq_true_eq]
                  exact h1
                · simp only [lexLtChars, if_neg hbc, decide_eq_true_eq] at h2
                  have hac : a < c := lt_trans h1 h2
                  have hne : ¬ a = c := ne_of_lt hac
                  simp only [lexLtChars, if_neg hne, decide_eq_true_eq]
                  exact hac

/-- Two lists neither of which is below the other are equal. -/
theorem lexLtChars_eq_of_not_lt : ∀ (as bs : List Char),
    lexLtChars as bs = false → lexLtChars bs as = false → as = bs := by
  intro as
  induction as with
  | nil =>
      intro bs h1 _
      cases bs with
      | nil => rfl
      | cons b bs => simp [lexLtChars] at h1
  | cons a as ih =>
      intro bs h1 h2
      cases bs with
      | nil => simp [lexLtChars] at h2
      | cons b bs =>
          by_cases hab : a = b
          · subst hab
            simp only [lexLtChars, if_pos rfl] at h1 h2
            exact congrArg (a :: ·) (ih bs h1 h2)
          · have hba : ¬ b = a := fun e => hab e.symm
            simp only [lexLtChars, if_neg hab, if_neg hba,
              decide_eq_false_iff_not] at h1 h2
            exact absurd (le_antisymm (not_lt.mp h2) (not_lt.mp h1)) hab

/-- Negative transitivity of the JS string order. -/
theorem lexLtChars_negtrans (as bs cs : List Char)
    (h1 : lexLtChars bs as = false) (h2 : lexLtChars cs bs = false) :
    lexLtChars cs as = false := by
  cases h : lexLtChars cs as
  · rfl
  · exfalso
    cases hab : lexLtChars as bs
    · have : as = bs := lexLtChars_eq_of_not_lt as bs hab h1
      subst this
      simp [h] at h2
    · have : lexLtChars cs bs = true := lexLtChars_trans cs as bs h hab
      simp [this] at h2

/-- Asymmetry of the JS `<` on comparator values. -/
theorem svLt_asymm (A B : SortVal) (h : svLt A B = true) : svLt B A = false := by
  cases A with
  | num p =>
      cases B with
      | num q =>
          simp only [svLt, decide_eq_true_eq, decide_eq_false_iff_not] at h ⊢
          exact lt_asymm h
      | str s => simp [svLt] at h
  | str s =>
      cases B with
      | num q => simp [svLt] at h
      | str t =>
          simp only [svLt, strLt] at h ⊢
          exact lexLtChars_asymm _ _ h

/-- The ascending comparator does not order `a` strictly after `b` exactly
when `b`'s key is not below `a`'s key. -/
theorem jsCompare_asc_le (key : SortKey) (a b : Flight) :
    jsCompare key .asc a b ≤ 0 ↔ svLt (sortVal key b) (sortVal key a) = false := by
  unfold jsCompare
  cases hAB : svLt (sortVal key a) (sortVal key b)
  · cases hBA : svLt (sortVal key b) (sortVal key a)
    · simp [hAB, hBA]
    · simp [hAB, hBA]
  · have hBA := svLt_asymm _ _ hAB
    simp [hAB, hBA]

/-- The descending comparator does not order `a` strictly after `b` exactly
when `a`'s key is not below `b`'s key. -/
theorem jsCompare_desc_le (key : SortKey) (a b : Flight) :
    jsCompare key .desc a b ≤ 0 ↔ svLt (sortVal key a) (sortVal key b) = false := by
  unfold jsCompare
  cases hAB : svLt (sortVal key a) (sortVal key b)
  · cases hBA : svLt (sortVal key b) (sortVal key a)
    · simp [hAB, hBA]
    · simp [hAB, hBA]
  · simp [hAB]

instance (key : SortKey) (dir : SortDir) : IsTotal Flight (sortRel key dir) := by
  constructor
  intro a b
  unfold sortRel
  cases dir
  · rw [jsCompare_asc_le, jsCompare_asc_le]
    cases h : svLt (sortVal key a) (sortVal key b)
    · right; rfl
    · left; exact svLt_asymm _ _ h
  · rw [jsCompare_desc_le, jsCompare_desc_le]
    cases h : svLt (sortVal key a) (sortVal key b)
    · left; rfl
    · right; exact svLt_asymm _ _ h

/-- Negative transitivity of `svLt` on same-kind values (the only kind of
pair a fixed sort key produces). -/
theorem svLt_negtrans (key : SortKey) (a b c : Flight)
    (h1 : svLt (sortVal key b) (sortVal key a) = false)
    (h2 : svLt (sortVal key c) (sortVal key b) = false) :
    svLt (sortVal key c) (sortVal key a) = false := by
  cases key
  · simp only [sortVal, svLt, strLt] at h1 h2 ⊢
    exact lexLtChars_negtrans _ _ _ h1 h2
  · simp only [sortVal, svLt, decide_eq_false_iff_not] at h1 h2 ⊢
    intro hlt
    rcases lt_or_le ((priceToNumber c.price_current c.price_normal).toWT)
        ((priceToNumber b.price_current b.price_normal).toWT) with h | h
    · exact h2 h
    · exact h1 (lt_of_le_of_lt h hlt)
  · simp only [sortVal, svLt, strLt] at h1 h2 ⊢
    exact lexLtChars_negtrans _ _ _ h1 h2

instance (key : SortKey) (dir : SortDir) : IsTrans Flight (sortRel key dir) := by
  constructor
  intro a b c hab hbc
  unfold sortRel at *
  cases dir
  · rw [jsCompare_asc_le] at *
    exact svLt_negtrans key a b c hab hbc
  · rw [jsCompare_desc_le] at *
    exact svLt_negtrans key c b a hbc hab

/-- The embedded sort output is sorted for the comparator preorder. -/
theorem sorted_sortedFlights (key : SortKey) (dir : SortDir) (l : List Flight) :
    List.Sorted (sortRel key dir) (sortedFlights key dir l) :=
  List.sorted_insertionSort _ _

/-- The embedded sort permutes its input: same members. -/
theorem mem_sortedFlights {f : Flight} (key : SortKey) (dir : SortDir) (l : List Flight) :
    f ∈ sortedFlights key dir l ↔ f ∈ l :=
  (List.perm_insertionSort _ _).mem_iff

/-- Every page item comes from the sliced list. -/
theorem mem_of_mem_pageItemsOf {f : Flight} {l : List Flight} {page : Int}
    (h : f ∈ pageItemsOf l page) : f ∈ l := by
  unfold pageItemsOf jsSlice at h
  exact List.mem_of_mem_take (List.mem_of_mem_drop h)

/-- Filtering out unavailable records twice is the same as once. -/
theorem baseFlights_idem (flights : List Flight) :
    baseFlights (flights.filter (fun f => effStatus f != "unavailable"))
      = baseFlights flights := by
  unfold baseFlights
  rw [List.filter_filter]
  congr 1
  funext f
  cases h : effStatus f != "unavailable" <;> simp [h]

/-- Members of the base list satisfy the hard status rule. -/
theorem effStatus_ne_of_mem_baseFlights {f : Flight} {flights : List Flight}
    (h : f ∈ baseFlights flights) : effStatus f ≠ "unavailable" := by
  unfold baseFlights at h
  exact bne_iff_ne.mp (List.mem_filter.mp h).2

/-- Key membership in the first-wins deduplication. -/
theorem mem_map_fst_dedupKeys (v : String) :
    ∀ (l : List (String × String)) (seen : List String),
      v ∈ (dedupKeys l seen).map Prod.fst ↔ v ∈ l.map Prod.fst ∧ v ∉ seen := by
  intro l
  induction l with
  | nil => intro seen; simp [dedupKeys]
  | cons p rest ih =>
      intro seen
      cases hc : seen.contains p.1
      · have hmem : p.1 ∉ seen := fun hx => by
          have : seen.contains p.1 = true := List.elem_iff.mpr hx
          rw [hc] at this
          exact Bool.false_ne_true this
        simp only [dedupKeys, hc, Bool.false_eq_true, if_false, List.map_cons,
          List.mem_cons, ih, List.mem_cons]
        constructor
        · rintro (he | ⟨h1, h2⟩)
          · exact ⟨Or.inl he, he ▸ hmem⟩
          · exact ⟨Or.inr h1, fun hx => h2 (Or.inr hx)⟩
        · rintro ⟨he | h1, h2⟩
          · exact Or.inl he
          · by_cases hv : v = p.1
            · exact Or.inl hv
            · exact Or.inr ⟨h1, fun hx => hx.elim hv h2⟩
      · have hmem : p.1 ∈ seen := List.elem_iff.mp hc
        simp only [dedupKeys, hc, if_true, List.map_cons, List.mem_cons, ih]
        constructor
        · rintro ⟨h1, h2⟩
          exact ⟨Or.inr h1, h2⟩
        · rintro ⟨he | h1, h2⟩
          · exact absurd (he ▸ hmem) h2
          · exact ⟨h1, h2⟩

/-- The departure-options candidate keys are the uppercased origin codes of
the flights kept by the loop's three skip conditions. -/
theorem optCollectDep_keys (toSel status : String) :
    ∀ l : List Flight,
      (optCollectDep toSel status l).map Prod.fst
        = (l.filter (fun f =>
            (strUpper (f.origin_iata.getD "") != "")
              && !((toSel != "") && (strUpper (f.destination_iata.getD "") != strUpper toSel))
              && !((status != "") && (effStatus f != strLower status)))).map
            (fun f => strUpper (f.origin_iata.getD "")) := by
  intro l
  induction l with
  | nil => rfl
  | cons f rest ih =>
      rw [List.filter_cons]
      by_cases h1 : strUpper (f.origin_iata.getD "") = ""
      · have hp : ((strUpper (f.origin_iata.getD "") != "")
            && !((toSel != "") && (strUpper (f.destination_iata.getD "") != strUpper toSel))
            && !((status != "") && (effStatus f != strLower status))) = false := by
          simp [h1]
        rw [if_neg (show ¬_ = true by rw [hp]; exact Bool.false_ne_true)]
        rw [show optCollectDep toSel status (f :: rest) = optCollectDep toSel status rest by
          simp only [optCollectDep]; rw [if_pos h1]]
        exact ih
      · by_cases h2 : ((toSel != "")
            && (strUpper (f.destination_iata.getD "") != strUpper toSel)) = true
        · have hp : ((strUpper (f.origin_iata.getD "") != "")
              && !((toSel != "") && (strUpper (f.destination_iata.getD "") != strUpper toSel))
              && !((status != "") && (effStatus f != strLower status))) = false := by
            simp [h2]
          rw [if_neg (show ¬_ = true by rw [hp]; exact Bool.false_ne_true)]
          rw [show optCollectDep toSel status (f :: rest) = optCollectDep toSel status rest by
            simp only [optCollectDep]; rw [if_neg h1, if_pos h2]]
          exact ih
        · have hb2 : ((toSel != "")
              && (strUpper (f.destination_iata.getD "") != strUpper toSel)) = false :=
            (Bool.not_eq_true _).mp h2
          by_cases h3 : ((status != "") && (effStatus f != strLower status)) = true
          · have hp : ((strUpper (f.origin_iata.getD "") != "")
                && !((toSel != "") && (strUpper (f.destination_iata.getD "") != strUpper toSel))
                && !((status != "") && (effStatus f != strLower status))) = false := by
              simp [h3]
            rw [if_neg (show ¬_ = true by rw [hp]; exact Bool.false_ne_true)]
            rw [show optCollectDep toSel status (f :: rest) = optCollectDep toSel status rest by
              simp only [optCollectDep]; rw [if_neg h1, if_neg h2, if_pos h3]]
            exact ih
          · have hb3 : ((status != "") && (effStatus f != strLower status)) = false :=
              (Bool.not_eq_true _).mp h3
            have hp : ((strUpper (f.origin_iata.getD "") != "")
                && !((toSel != "") && (strUpper (f.destination_iata.getD "") != strUpper toSel))
                && !((status != "") && (effStatus f != strLower status))) = true := by
              simp [hb2, hb3, bne_iff_ne, h1]
            rw [if_pos hp]
            rw [show optCollectDep toSel status (f :: rest)
                = (strUpper (f.origin_iata.getD ""),
                    strUpper (f.origin_iata.getD "") ++ " — "
                      ++ jsOr f.origin_name (strUpper (f.origin_iata.getD "")))
                  :: optCollectDep toSel status rest by
              simp only [optCollectDep]; rw [if_neg h1, if_neg h2, if_neg h3]]
            simp only [List.map_cons]
            rw [ih]

/-- The destination-options candidate keys are the uppercased destination codes of
the flights kept by the loop's three skip conditions. -/
theorem optCollectDest_keys (fromSel status : String) :
    ∀ l : List Flight,
      (optCollectDest fromSel status l).map Prod.fst
        = (l.filter (fun f =>
            (strUpper (f.destination_iata.getD "") != "")
              && !((fromSel != "") && (strUpper (f.origin_iata.getD "") != strUpper fromSel))
              && !((status != "") && (effStatus f != strLower status)))).map
            (fun f => strUpper (f.destination_iata.getD "")) := by
  intro l
  induction l with
  | nil => rfl
  | cons f rest ih =>
      rw [List.filter_cons]
      by_cases h1 : strUpper (f.destination_iata.getD "") = ""
      · have hp : ((strUpper (f.destination_iata.getD "") != "")
            && !((fromSel != "") && (strUpper (f.origin_iata.getD "") != strUpper fromSel))
            && !((status != "") && (effStatus f != strLower status))) = false := by
          simp [h1]
        rw [if_neg (show ¬_ = true by rw [hp]; exact Bool.false_ne_true)]
        rw [show optCollectDest fromSel status (f :: rest) = optCollectDest fromSel status rest by
          simp only [optCollectDest]; rw [if_pos h1]]
        exact ih
      · by_cases h2 : ((fromSel != "")
            && (strUpper (f.origin_iata.getD "") != strUpper fromSel)) = true
        · have hp : ((strUpper (f.destination_iata.getD "") != "")
              && !((fromSel != "") && (strUpper (f.origin_iata.getD "") != strUpper fromSel))
              && !((status != "") && (effStatus f != strLower status))) = false := by
            simp [h2]
          rw [if_neg (show ¬_ = true by rw [hp]; exact Bool.false_ne_true)]
          rw [show optCollectDest fromSel status (f :: rest) = optCollectDest fromSel status rest by
            simp only [optCollectDest]; rw [if_neg h1, if_pos h2]]
          exact ih
        · have hb2 : ((fromSel != "")
              && (strUpper (f.origin_iata.getD "") != strUpper fromSel)) = false :=
            (Bool.not_eq_true _).mp h2
          by_cases h3 : ((status != "") && (effStatus f != strLower status)) = true
          · have hp : ((strUpper (f.destination_iata.getD "") != "")
                && !((fromSel != "") && (strUpper (f.origin_iata.getD "") != strUpper fromSel))
                && !((status != "") && (effStatus f != strLower status))) = false := by
              simp [h3]
            rw [if_neg (show ¬_ = true by rw [hp]; exact Bool.false_ne_true)]
            rw [show optCollectDest fromSel status (f :: rest) = optCollectDest fromSel status rest by
              simp only [optCollectDest]; rw [if_neg h1, if_neg h2, if_pos h3]]
            exact ih
          · have hb3 : ((status != "") && (effStatus f != strLower status)) = false :=
              (Bool.not_eq_true _).mp h3
            have hp : ((strUpper (f.destination_iata.getD "") != "")
                && !((fromSel != "") && (strUpper (f.origin_iata.getD "") != strUpper fromSel))
                && !((status != "") && (effStatus f != strLower status))) = true := by
              simp [hb2, hb3, bne_iff_ne, h1]
            rw [if_pos hp]
            rw [show optCollectDest fromSel status (f :: rest)
                = (strUpper (f.destination_iata.getD ""),
                    strUpper (f.destination_iata.getD "") ++ " — "
                      ++ jsOr f.destination_name (strUpper (f.destination_iata.getD "")))
                  :: optCollectDest fromSel status rest by
              simp only [optCollectDest]; rw [if_neg h1, if_neg h2, if_neg h3]]
            simp only [List.map_cons]
            rw [ih]

/-- Membership in the origin option values, reduced through the label sort,
the deduplication and the collection loop. -/
theorem mem_optionValues_departureOptions (status toSel v : String) (flights : List Flight) :
    v ∈ optionValues (departureOptions status toSel flights) ↔
      ∃ f, f ∈ baseFlights flights ∧
        ((strUpper (f.origin_iata.getD "") != "")
          && !((toSel != "") && (strUpper (f.destination_iata.getD "") != strUpper toSel))
          && !((status != "") && (effStatus f != strLower status))) = true ∧
        strUpper (f.origin_iata.getD "") = v := by
  unfold departureOptions optionValues
  rw [((List.perm_insertionSort labelRel _).map FacetOption.value).mem_iff]
  rw [List.map_map]
  rw [show (FacetOption.value ∘ fun p : String × String => (⟨p.1, p.2⟩ : FacetOption))
      = Prod.fst from rfl]
  rw [mem_map_fst_dedupKeys]
  rw [optCollectDep_keys]
  simp only [List.mem_map, List.mem_filter, List.not_mem_nil, not_false_iff, and_true]
  constructor
  · rintro ⟨f, ⟨hf, hc⟩, hv⟩
    exact ⟨f, hf, hc, hv⟩
  · rintro ⟨f, hf, hc, hv⟩
    exact ⟨f, ⟨hf, hc⟩, hv⟩

/-- Membership in the destination option values. -/
theorem mem_optionValues_destinationOptions (status fromSel v : String) (flights : List Flight) :
    v ∈ optionValues (destinationOptions status fromSel flights) ↔
      ∃ f, f ∈ baseFlights flights ∧
        ((strUpper (f.destination_iata.getD "") != "")
          && !((fromSel != "") && (strUpper (f.origin_iata.getD "") != strUpper fromSel))
          && !((status != "") && (effStatus f != strLower status))) = true ∧
        strUpper (f.destination_iata.getD "") = v := by
  unfold destinationOptions optionValues
  rw [((List.perm_insertionSort labelRel _).map FacetOption.value).mem_iff]
  rw [List.map_map]
  rw [show (FacetOption.value ∘ fun p : String × String => (⟨p.1, p.2⟩ : FacetOption))
      = Prod.fst from rfl]
  rw [mem_map_fst_dedupKeys]
  rw [optCollectDest_keys]
  simp only [List.mem_map, List.mem_filter, List.not_mem_nil, not_false_iff, and_true]
  constructor
  · rintro ⟨f, ⟨hf, hc⟩, hv⟩
    exact ⟨f, hf, hc, hv⟩
  · rintro ⟨f, hf, hc, hv⟩
    exact ⟨f, ⟨hf, hc⟩, hv⟩

/-- C1: for every record set and every filter/sort/page state, no flight
whose effective status (`status_latest` falling back to `status`) is
"unavailable" appears in the visible page items, and the origin and
destination facet option lists are unchanged when such records are removed
from the input — independently of the user-selected status filter. -/
theorem claim_C1 (sysOff now : Int) (st : FilterState) (key : SortKey) (dir : SortDir)
    (page : Int) (flights : List Flight) :
    (∀ f, f ∈ pageItemsRun sysOff now st key dir page flights →
      effStatus f ≠ "unavailable") ∧
    departureOptions st.status st.«to» flights
      = departureOptions st.status st.«to»
        (flights.filter (fun f => effStatus f != "unavailable")) ∧
    destinationOptions st.status st.«from» flights
      = destinationOptions st.status st.«from»
        (flights.filter (fun f => effStatus f != "unavailable")) := by
  refine ⟨?_, ?_, ?_⟩
  · intro f hf
    have h1 := mem_of_mem_pageItemsOf hf
    have h2 := (mem_sortedFlights key dir _).mp h1
    unfold filteredFlights at h2
    exact effStatus_ne_of_mem_baseFlights (List.mem_filter.mp h2).1
  · unfold departureOptions
    rw [baseFlights_idem]
  · unfold destinationOptions
    rw [baseFlights_idem]

/-- C1 witness: a concrete available flight is a visible page item and has a
non-"unavailable" status. -/
theorem claim_C1_witness :
    ({ id := "w1" } : Flight) ∈ pageItemsRun 0 0 {} .departure .asc 1 [{ id := "w1" }] ∧
    effStatus { id := "w1" } ≠ "unavailable" :=
  ⟨by decide,
   (claim_C1 0 0 {} .departure .asc 1 [{ id := "w1" }]).1 { id := "w1" } (by decide)⟩

/-- Helper: replacing the first space in a list without spaces changes
nothing. -/
theorem replaceFirstSpace_of_no_space :
    ∀ (cs : List Char), ' ' ∉ cs → replaceFirstSpace cs = cs := by
  intro cs
  induction cs with
  | nil => intro _; rfl
  | cons c rest ih =>
      intro h
      have hc : ¬ c = ' ' := fun e => h (e ▸ List.mem_cons_self c rest)
      have hr : ' ' ∉ rest := fun e => h (List.mem_cons.mpr (Or.inr e))
      simp only [replaceFirstSpace]
      rw [if_neg hc, ih hr]

/-- Helper: the first space after a space-free prefix is the one replaced. -/
theorem replaceFirstSpace_append_space :
    ∀ (as bs : List Char), ' ' ∉ as →
      replaceFirstSpace (as ++ ' ' :: bs) = as ++ 'T' :: bs := by
  intro as bs
  induction as with
  | nil => intro _; simp [replaceFirstSpace]
  | cons c rest ih =>
      intro h
      have hc : ¬ c = ' ' := fun e => h (e ▸ List.mem_cons_self c rest)
      have hr : ' ' ∉ rest := fun e => h (List.mem_cons.mpr (Or.inr e))
      simp only [List.cons_append, replaceFirstSpace, List.append_eq]
      rw [if_neg hc, ih hr]

/-- C2 (amended): `parsePgTimestamptz` normalizes by replacing the first
space with "T", so the space-separated and "T"-separated forms of the same
components parse identically; forms whose normalization carries an explicit
offset (or is a bare date) are independent of the system timezone; but an
offset-free date-time form is interpreted as system-local time, so its
instant shifts with the system offset (it is not treated as UTC). -/
theorem claim_C2 :
    (∀ (sysOff : Int) (a b : String), ' ' ∉ a.data → ' ' ∉ b.data →
      parsePgTimestamptz sysOff (a ++ " " ++ b)
        = parsePgTimestamptz sysOff (a ++ "T" ++ b)) ∧
    (∀ (o1 o2 : Int) (s : String) (c off : Int),
      jsSplit (String.mk (replaceFirstSpace s.data)) = some (c, some off) →
      parsePgTimestamptz o1 s = parsePgTimestamptz o2 s) ∧
    (∀ (sysOff : Int) (s : String) (c : Int),
      jsSplit (String.mk (replaceFirstSpace s.data)) = some (c, none) →
      parsePgTimestamptz sysOff s = some (c - sysOff)) ∧
    parsePgTimestamptz 0 "2025-08-16 09:12:00+00"
      = parsePgTimestamptz 0 "2025-08-16T09:12:00Z" := by
  refine ⟨?_, ?_, ?_, by decide⟩
  · intro sysOff a b ha hb
    unfold parsePgTimestamptz
    congr 1
    rw [String.data_append, String.data_append, String.data_append, String.data_append]
    rw [show (" " : String).data = [' '] from rfl, show ("T" : String).data = ['T'] from rfl]
    rw [List.append_assoc, List.append_assoc]
    rw [show ([' '] ++ b.data) = ' ' :: b.data from rfl,
        show (['T'] ++ b.data) = 'T' :: b.data from rfl]
    rw [replaceFirstSpace_append_space a.data b.data ha]
    rw [replaceFirstSpace_of_no_space (a.data ++ 'T' :: b.data)]
    intro hmem
    rcases List.mem_append.mp hmem with h | h
    · exact ha h
    · rcases List.mem_cons.mp h with h | h
      · exact absurd h (by decide)
      · exact hb h
  · intro o1 o2 s c off h
    unfold parsePgTimestamptz jsDateParse
    rw [h]
    rfl
  · intro sysOff s c h
    unfold parsePgTimestamptz jsDateParse
    rw [h]
    rfl

/-- C2 counterexample: the offset-free input "2025-08-16 09:12:00" parses to
different instants under two different system offsets, so its instant is not
independent of the system default timezone (and is not UTC). -/
theorem claim_C2_counterexample :
    parsePgTimestamptz 0 "2025-08-16 09:12:00"
      ≠ parsePgTimestamptz 3600 "2025-08-16 09:12:00" := by decide

/-- C2 witness: the normalization equivalence applied to a concrete
offset-carrying timestamp. -/
theorem claim_C2_witness :
    (' ' ∉ "2025-08-16".data) ∧ (' ' ∉ "09:12:00+00".data) ∧
    parsePgTimestamptz 0 ("2025-08-16" ++ " " ++ "09:12:00+00")
      = parsePgTimestamptz 0 ("2025-08-16" ++ "T" ++ "09:12:00+00") :=
  ⟨by decide, by decide, claim_C2.1 0 "2025-08-16" "09:12:00+00" (by decide) (by decide)⟩

/-- C3 (amended): `dayLabel` compares rendered civil dates, with "Tomorrow"
defined as the civil date of the instant `now + 24h` (not "now's civil date
plus one calendar day"; the two agree for fixed-offset zones, as the second
conjunct states, but can differ across a daylight-saving transition); an
instant rendering equal to now's civil date is "Today", equal to the
`now + 24h` rendering (and not today's) is "Tomorrow", anything else is
"Upcoming".  The last two conjuncts are the claim's boundary instances:
23:59 with "now" at 00:01 the same civil day is "Today", and 00:01 of the
next civil day with "now" at 23:59 is "Tomorrow". -/
theorem claim_C3 :
    (∀ (tz : Int → Int) (sysOff now : Int) (ts : String) (t : Int),
      parsePgTimestamptz sysOff ts = some t →
      dayLabel tz sysOff now ts =
        some (if ymdString tz t = ymdString tz now then "Today"
              else if ymdString tz t = ymdString tz (now + 86400) then "Tomorrow"
              else "Upcoming")) ∧
    (∀ (off now : Int),
      localDayIdx (fun _ => off) (now + 86400) = localDayIdx (fun _ => off) now + 1) ∧
    dayLabel (fun _ => 0) 0 60 "1970-01-01T23:59:00Z" = some "Today" ∧
    dayLabel (fun _ => 0) 0 86340 "1970-01-02T00:01:00Z" = some "Tomorrow" := by
  refine ⟨?_, ?_, by decide, by decide⟩
  · intro tz sysOff now ts t h
    unfold dayLabel
    rw [h]
  · intro off now
    show Int.ediv (now + 86400 + off) 86400 = Int.ediv (now + off) 86400 + 1
    rw [show now + 86400 + off = now + off + 1 * 86400 by ring]
    show (now + off + 1 * 86400) / 86400 = (now + off) / 86400 + 1
    exact Int.add_mul_ediv_right _ _ (by norm_num)

/-- C3 counterexample: around the Europe/Berlin 2025 fall-back transition
(a 25-hour civil day), a flight whose local civil date is exactly one
calendar day after "now"'s local civil date is labelled "Upcoming", not
"Tomorrow", because `ymd(now + 24h)` still renders the same civil day as
`ymd(now)`. -/
theorem claim_C3_counterexample :
    parsePgTimestamptz 0 "2025-10-27T12:00:00Z" = some flightNextDay ∧
    localDayIdx tzBerlin flightNextDay = localDayIdx tzBerlin nowFallBack + 1 ∧
    ymdString tzBerlin (nowFallBack + 86400) = ymdString tzBerlin nowFallBack ∧
    dayLabel tzBerlin 0 nowFallBack "2025-10-27T12:00:00Z" = some "Upcoming" := by
  refine ⟨by decide, by decide, by decide, by decide⟩

/-- C3 witness: the civil-date characterization applied at a concrete
instant. -/
theorem claim_C3_witness :
    parsePgTimestamptz 0 "1970-01-05T00:00:00Z" = some 345600 ∧
    dayLabel (fun _ => 0) 0 0 "1970-01-05T00:00:00Z" =
      some (if ymdString (fun _ => 0) 345600 = ymdString (fun _ => 0) 0 then "Today"
            else if ymdString (fun _ => 0) 345600 = ymdString (fun _ => 0) (0 + 86400)
              then "Tomorrow"
            else "Upcoming") :=
  ⟨by decide, claim_C3.1 (fun _ => 0) 0 0 "1970-01-05T00:00:00Z" 345600 (by decide)⟩

/-- C4: evaluation at failing inputs.  An unparseable, non-empty timestamp
makes `dayLabel` and `formatLocal` hit `Intl.DateTimeFormat(...).format` on
an invalid Date, which throws a RangeError (modelled `none`) instead of
returning the bucket "Upcoming" or an empty string; the last conjunct states
this for every unparseable input. -/
theorem claim_C4 :
    dayLabel (fun _ => 0) 0 0 "garbage" = none ∧
    formatLocal (fun _ => 0) 0 "garbage" = none ∧
    dayLabel (fun _ => 0) 0 0 "2025-02-30 10:00:00" = none ∧
    (∀ (tz : Int → Int) (sysOff now : Int) (ts : String),
      parsePgTimestamptz sysOff ts = none →
      dayLabel tz sysOff now ts = none ∧ formatLocal tz sysOff ts = none) := by
  refine ⟨by decide, by decide, by decide, ?_⟩
  intro tz sysOff now ts h
  constructor
  · unfold dayLabel
    rw [h]
  · unfold formatLocal
    rw [h]
    rfl

/-- C4 witness: the generic unparseable-input conjunct applied to a concrete
garbage input. -/
theorem claim_C4_witness :
    parsePgTimestamptz 0 "not-a-date" = none ∧
    dayLabel (fun _ => 0) 0 0 "not-a-date" = none ∧
    formatLocal (fun _ => 0) 0 "not-a-date" = none :=
  ⟨by decide,
   (claim_C4.2.2.2 (fun _ => 0) 0 0 "not-a-date" (by decide)).1,
   (claim_C4.2.2.2 (fun _ => 0) 0 0 "not-a-date" (by decide)).2⟩

/-- C5 (amended): `totalPages = max(1, ceil(len/12))` and `currentPage =
min(requestedPage, totalPages)` — there is no lower clamp.  For every
requested page ≥ 1 on a non-empty list the current page lands in
`[1, totalPages]`, an over-range request (e.g. 999) degrades to
`totalPages`, and the slice is never empty; a request below 1 (which the UI
never issues) is NOT clamped up to 1. -/
theorem claim_C5 (l : List Flight) (page : Int) (hpage : 1 ≤ page) (hne : l ≠ []) :
    1 ≤ currentPageOf page (totalPagesOf l.length) ∧
    currentPageOf page (totalPagesOf l.length) ≤ (totalPagesOf l.length : Int) ∧
    ((totalPagesOf l.length : Int) ≤ page →
      currentPageOf page (totalPagesOf l.length) = (totalPagesOf l.length : Int)) ∧
    pageItemsOf l page ≠ [] := by
  have hn : 0 < l.length := List.length_pos.mpr hne
  have htp : totalPagesOf l.length = (l.length + 11) / 12 := by
    unfold totalPagesOf pageSize
    omega
  have htp1 : 1 ≤ totalPagesOf l.length := by
    unfold totalPagesOf
    exact le_max_left 1 _
  have hcp1 : 1 ≤ currentPageOf page (totalPagesOf l.length) := by
    unfold currentPageOf
    exact le_min hpage (by exact_mod_cast htp1)
  have hcp2 : currentPageOf page (totalPagesOf l.length) ≤ (totalPagesOf l.length : Int) :=
    min_le_right _ _
  have hkey : currentPageOf page (totalPagesOf l.length)
      ≤ (((l.length + 11) / 12 : Nat) : Int) := by
    rw [← htp]
    exact hcp2
  refine ⟨hcp1, hcp2, fun h => min_eq_right h, ?_⟩
  rw [← List.length_pos]
  show 0 < (jsSlice l
      ((currentPageOf page (totalPagesOf l.length) - 1) * (pageSize : Int))
      ((currentPageOf page (totalPagesOf l.length) - 1) * (pageSize : Int)
        + (pageSize : Int))).length
  rw [show ((pageSize : Nat) : Int) = 12 from rfl]
  generalize currentPageOf page (totalPagesOf l.length) = cp at hcp1 hkey ⊢
  unfold jsSlice jsSliceIdx
  rw [List.length_drop, List.length_take]
  rw [if_neg (by omega), if_neg (by omega)]
  omega

/-- C5 counterexample: on a non-empty list, requested page 0 is not clamped
to 1 — `currentPage` is 0 and the slice `slice(-12, 0)` is empty. -/
theorem claim_C5_counterexample :
    ([({ id := "a" } : Flight)] ≠ []) ∧
    currentPageOf 0 (totalPagesOf ([({ id := "a" } : Flight)]).length) = 0 ∧
    currentPageOf 0 (totalPagesOf ([({ id := "a" } : Flight)]).length) ≠ 1 ∧
    pageItemsOf [({ id := "a" } : Flight)] 0 = [] := by
  refine ⟨by decide, by decide, by decide, by decide⟩

/-- C5 witness: page request 999 on a one-element list clamps to the last
page and yields a non-empty slice. -/
theorem claim_C5_witness :
    (1 : Int) ≤ 999 ∧ ([({ id := "w5" } : Flight)] ≠ []) ∧
    ((totalPagesOf ([({ id := "w5" } : Flight)]).length : Int) ≤ 999 →
      currentPageOf 999 (totalPagesOf ([({ id := "w5" } : Flight)]).length)
        = (totalPagesOf ([({ id := "w5" } : Flight)]).length : Int)) ∧
    pageItemsOf [({ id := "w5" } : Flight)] 999 ≠ [] :=
  ⟨by decide, by decide,
   (claim_C5 [({ id := "w5" } : Flight)] 999 (by decide) (by decide)).2.2.1,
   (claim_C5 [({ id := "w5" } : Flight)] 999 (by decide) (by decide)).2.2.2⟩

/-- Helper: a negated Boolean being true means the Boolean is false. -/
theorem bool_not_true {b : Bool} (h : (!b) = true) : b = false := by
  cases b
  · rfl
  · simp at h

/-- C6 (amended): the origin facet list applies exactly the hard
"unavailable" rule, the destination filter and the status filter — not the
origin filter itself (so the current origin selection never self-excludes),
and also not the date, max-price or aircraft filters; symmetrically for
destination options.  An uppercased code is offered exactly when some record
yields it and passes those conditions. -/
theorem claim_C6 (status toSel fromSel v : String) (flights : List Flight) :
    (v ∈ optionValues (departureOptions status toSel flights) ↔
      ∃ f, f ∈ flights ∧ effStatus f ≠ "unavailable" ∧
        strUpper (f.origin_iata.getD "") = v ∧ v ≠ "" ∧
        (toSel ≠ "" → strUpper (f.destination_iata.getD "") = strUpper toSel) ∧
        (status ≠ "" → effStatus f = strLower status)) ∧
    (v ∈ optionValues (destinationOptions status fromSel flights) ↔
      ∃ f, f ∈ flights ∧ effStatus f ≠ "unavailable" ∧
        strUpper (f.destination_iata.getD "") = v ∧ v ≠ "" ∧
        (fromSel ≠ "" → strUpper (f.origin_iata.getD "") = strUpper fromSel) ∧
        (status ≠ "" → effStatus f = strLower status)) := by
  constructor
  · rw [mem_optionValues_departureOptions]
    constructor
    · rintro ⟨f, hf, hc, hv⟩
      rw [Bool.and_eq_true, Bool.and_eq_true] at hc
      obtain ⟨⟨hc1, hc2⟩, hc3⟩ := hc
      refine ⟨f, (List.mem_filter.mp hf).1, effStatus_ne_of_mem_baseFlights hf, hv,
        hv ▸ bne_iff_ne.mp hc1, ?_, ?_⟩
      · intro hts
        rcases Bool.and_eq_false_iff.mp (bool_not_true hc2) with hx | hx
        · exact absurd (bne_eq_false_iff_eq.mp hx) hts
        · exact bne_eq_false_iff_eq.mp hx
      · intro hst
        rcases Bool.and_eq_false_iff.mp (bool_not_true hc3) with hx | hx
        · exact absurd (bne_eq_false_iff_eq.mp hx) hst
        · exact bne_eq_false_iff_eq.mp hx
    · rintro ⟨f, hf, hstat, hv, hne, himpD, himpS⟩
      refine ⟨f, List.mem_filter.mpr ⟨hf, bne_iff_ne.mpr hstat⟩, ?_, hv⟩
      rw [Bool.and_eq_true, Bool.and_eq_true]
      refine ⟨⟨bne_iff_ne.mpr (hv ▸ hne), ?_⟩, ?_⟩
      · rw [Bool.not_eq_true']
        by_cases hts : toSel = ""
        · simp [hts]
        · rw [Bool.and_eq_false_iff]
          exact Or.inr (bne_eq_false_iff_eq.mpr (himpD hts))
      · rw [Bool.not_eq_true']
        by_cases hst : status = ""
        · simp [hst]
        · rw [Bool.and_eq_false_iff]
          exact Or.inr (bne_eq_false_iff_eq.mpr (himpS hst))
  · rw [mem_optionValues_destinationOptions]
    constructor
    · rintro ⟨f, hf, hc, hv⟩
      rw [Bool.and_eq_true, Bool.and_eq_true] at hc
      obtain ⟨⟨hc1, hc2⟩, hc3⟩ := hc
      refine ⟨f, (List.mem_filter.mp hf).1, effStatus_ne_of_mem_baseFlights hf, hv,
        hv ▸ bne_iff_ne.mp hc1, ?_, ?_⟩
      · intro hts
        rcases Bool.and_eq_false_iff.mp (bool_not_true hc2) with hx | hx
        · exact absurd (bne_eq_false_iff_eq.mp hx) hts
        · exact bne_eq_false_iff_eq.mp hx
      · intro hst
        rcases Bool.and_eq_false_iff.mp (bool_not_true hc3) with hx | hx
        · exact absurd (bne_eq_false_iff_eq.mp hx) hst
        · exact bne_eq_false_iff_eq.mp hx
    · rintro ⟨f, hf, hstat, hv, hne, himpD, himpS⟩
      refine ⟨f, List.mem_filter.mpr ⟨hf, bne_iff_ne.mpr hstat⟩, ?_, hv⟩
      rw [Bool.and_eq_true, Bool.and_eq_true]
      refine ⟨⟨bne_iff_ne.mpr (hv ▸ hne), ?_⟩, ?_⟩
      · rw [Bool.not_eq_true']
        by_cases hts : fromSel = ""
        · simp [hts]
        · rw [Bool.and_eq_false_iff]
          exact Or.inr (bne_eq_false_iff_eq.mpr (himpD hts))
      · rw [Bool.not_eq_true']
        by_cases hst : status = ""
        · simp [hst]
        · rw [Bool.and_eq_false_iff]
          exact Or.inr (bne_eq_false_iff_eq.mpr (himpS hst))

/-- C6 counterexample: with an active aircraft filter "JetA", the code's
origin list still offers "BBB", whose only flight fails the aircraft filter
— so the origin facet does NOT apply every active filter except the origin
filter (the spec-modelled version applying all of them omits "BBB"). -/
theorem claim_C6_counterexample :
    "BBB" ∈ optionValues (departureOptions c6st.status c6st.«to» [c6f1, c6f2]) ∧
    aircraftCheck c6st.aircraft c6f2 = true ∧
    "BBB" ∉ optionValues (specOriginOptions c6st [c6f1, c6f2]) ∧
    optionValues (departureOptions c6st.status c6st.«to» [c6f1, c6f2])
      ≠ optionValues (specOriginOptions c6st [c6f1, c6f2]) := by
  refine ⟨by decide, by decide, by decide, by decide⟩

/-- Helper: the empty string is strictly below any nonempty string in the JS
string order. -/
theorem strLt_empty_of_ne {s : String} (h : s ≠ "") : strLt "" s = true := by
  cases s with
  | mk data =>
      cases data with
      | nil => exact absurd rfl h
      | cons c cs => rfl

/-- C7 (amended): for the departure key the effective comparable is the raw
`departure_ts` string with the empty string for a missing value, so flights
without a departure timestamp appear BEFORE every flight with a nonempty
timestamp in ascending order and after them in descending order (they are
not pushed last in both directions). -/
theorem claim_C7 (l : List Flight) :
    List.Pairwise
      (fun a b => a.departure_ts.getD "" ≠ "" → b.departure_ts.getD "" ≠ "")
      (sortedFlights .departure .asc l) ∧
    List.Pairwise
      (fun a b => b.departure_ts.getD "" ≠ "" → a.departure_ts.getD "" ≠ "")
      (sortedFlights .departure .desc l) := by
  constructor
  · refine (sorted_sortedFlights .departure .asc l).imp ?_
    intro a b hab ha hb
    rw [sortRel, jsCompare_asc_le] at hab
    simp only [sortVal, svLt] at hab
    rw [hb] at hab
    rw [strLt_empty_of_ne ha] at hab
    exact Bool.noConfusion hab
  · refine (sorted_sortedFlights .departure .desc l).imp ?_
    intro a b hab hb ha
    rw [sortRel, jsCompare_desc_le] at hab
    simp only [sortVal, svLt] at hab
    rw [ha] at hab
    rw [strLt_empty_of_ne hb] at hab
    exact Bool.noConfusion hab

/-- C7 counterexample: in ascending departure order, a flight with a
missing timestamp sorts FIRST (its comparable is the empty string), not
after the flights with valid timestamps. -/
theorem claim_C7_counterexample :
    c7n.departure_ts = none ∧ c7t.departure_ts ≠ none ∧
    sortedFlights .departure .asc [c7t, c7n] = [c7n, c7t] := by
  refine ⟨by decide, by decide, by decide⟩

/-- C8 (amended): the max-price clause is inert when the field is empty or
when `Number(maxPrice)` is NaN; when the field parses to a FINITE number the
flight is excluded by the clause exactly when its effective price (current,
else normal, else +Infinity) exceeds it, and a firing clause makes the whole
predicate reject; but the guard is `!Number.isNaN`, not `Number.isFinite`,
so "-Infinity" (a non-finite parse) applies the comparison `p > -Infinity`,
which holds for every effective price — excluding every flight instead of
being treated as unset ("Infinity" conversely excludes none). -/
theorem claim_C8 (st : FilterState) (f : Flight) (sysOff now : Int) :
    (st.maxPrice = "" → maxPriceCheck st.maxPrice f = false) ∧
    (jsNumber st.maxPrice = .nan → maxPriceCheck st.maxPrice f = false) ∧
    (∀ q : ℚ, st.maxPrice ≠ "" → jsNumber st.maxPrice = .fin q →
      (maxPriceCheck st.maxPrice f = true ↔
        (priceToNumber f.price_current f.price_normal = .inf ∨
          ∃ p : ℚ, priceToNumber f.price_current f.price_normal = .fin p ∧ q < p))) ∧
    (st.maxPrice ≠ "" → jsNumber st.maxPrice = .neginf →
      maxPriceCheck st.maxPrice f = true) ∧
    (jsNumber st.maxPrice = .posinf → maxPriceCheck st.maxPrice f = false) ∧
    (maxPriceCheck st.maxPrice f = true → matchesFilters sysOff now st f = false) := by
  refine ⟨?_, ?_, ?_, ?_, ?_, ?_⟩
  · intro h
    unfold maxPriceCheck
    rw [h]
    rfl
  · intro h
    unfold maxPriceCheck
    rw [h]
    simp
  · intro q hne h
    unfold maxPriceCheck
    rw [h]
    rw [Bool.and_eq_true]
    constructor
    · rintro ⟨-, hgt⟩
      cases hp : priceToNumber f.price_current f.price_normal with
      | inf => exact Or.inl rfl
      | fin p =>
          rw [hp] at hgt
          unfold gtNum at hgt
          rw [show (EPrice.fin p).toWT = (p : WithTop ℚ) from rfl] at hgt
          refine Or.inr ⟨p, rfl, ?_⟩
          exact_mod_cast of_decide_eq_true hgt
    · intro hcase
      refine ⟨bne_iff_ne.mpr hne, ?_⟩
      rcases hcase with hp | ⟨p, hp, hqp⟩
      · rw [hp]
        rfl
      · rw [hp]
        unfold gtNum
        rw [show (EPrice.fin p).toWT = (p : WithTop ℚ) from rfl]
        exact decide_eq_true (by exact_mod_cast hqp)
  · intro hne h
    unfold maxPriceCheck
    rw [h]
    rw [Bool.and_eq_true]
    exact ⟨bne_iff_ne.mpr hne, by cases priceToNumber f.price_current f.price_normal <;> rfl⟩
  · intro h
    unfold maxPriceCheck
    rw [h]
    simp [gtNum]
  · intro h
    unfold matchesFilters
    rw [h]
    simp

/-- C8 counterexample: `maxPrice = "-Infinity"` does not parse to a finite
number, yet the filter is not treated as unset — it excludes a flight that
every other clause keeps. -/
theorem claim_C8_counterexample :
    jsNumber "-Infinity" = JsNum.neginf ∧
    matchesFilters 0 0 { } c8f = true ∧
    matchesFilters 0 0 { maxPrice := "-Infinity" } c8f = false := by
  refine ⟨by decide, by decide, by decide⟩

/-- C8 witness: the finite-parse exclusion characterization applied at
maxPrice "500" and a flight priced 100 (kept: 100 does not exceed 500). -/
theorem claim_C8_witness :
    ({ maxPrice := "500" } : FilterState).maxPrice ≠ "" ∧
    jsNumber ({ maxPrice := "500" } : FilterState).maxPrice = .fin 500 ∧
    (maxPriceCheck ({ maxPrice := "500" } : FilterState).maxPrice c8f = true ↔
      (priceToNumber c8f.price_current c8f.price_normal = .inf ∨
        ∃ p : ℚ, priceToNumber c8f.price_current c8f.price_normal = .fin p ∧ (500 : ℚ) < p)) :=
  ⟨by decide, by decide,
   (claim_C8 { maxPrice := "500" } c8f 0 0).2.2.1 500 (by decide) (by decide)⟩

/-- C9: every status-sensitive decision goes through the one shared
expression `String(f.status_latest ?? f.status ?? "").toLowerCase()`
(`effStatus` here): a non-null `status_latest` always wins (even when
empty), `status` is consulted only when `status_latest` is null/undefined —
so a record with `status_latest = "available"` and `status = "unavailable"`
is treated as available and is listed. -/
theorem claim_C9 :
    (∀ (f : Flight) (s : String), f.status_latest = some s →
      effStatus f = strLower s) ∧
    (∀ f : Flight, f.status_latest = none →
      effStatus f = strLower (f.status.getD "")) ∧
    effStatus c9f = "available" ∧
    pageItemsRun 0 0 { } .departure .asc 1 [c9f] = [c9f] := by
  refine ⟨?_, ?_, by decide, by decide⟩
  · intro f s h
    unfold effStatus
    rw [h, Option.or_some]
    rfl
  · intro f h
    unfold effStatus
    rw [h, Option.none_or]

/-- C9 witness: the fallback characterization applied at the concrete
record whose `status_latest` and `status` disagree. -/
theorem claim_C9_witness :
    c9f.status_latest = some "available" ∧ effStatus c9f = strLower "available" :=
  ⟨rfl, claim_C9.1 c9f "available" rfl⟩

/-- C10: a flight whose `price_current` and `price_normal` are both
non-numbers at the JS type level (numeric strings, null, undefined) has
effective price +Infinity, fires the max-price clause for every set,
finitely-parsing max-price value (so the whole predicate rejects it), and in
ascending price order no such flight ever appears before a flight with a
finite effective price. -/
theorem claim_C10 :
    (∀ (f : Flight) (st : FilterState) (sysOff now : Int) (q : ℚ),
      isNumberType f.price_current = false → isNumberType f.price_normal = false →
      st.maxPrice ≠ "" → jsNumber st.maxPrice = .fin q →
      priceToNumber f.price_current f.price_normal = .inf ∧
      maxPriceCheck st.maxPrice f = true ∧
      matchesFilters sysOff now st f = false) ∧
    (∀ l : List Flight,
      List.Pairwise
        (fun a b => priceToNumber a.price_current a.price_normal = .inf →
          priceToNumber b.price_current b.price_normal = .inf)
        (sortedFlights .price .asc l)) := by
  constructor
  · intro f st sysOff now q hc hn hne hq
    have hinf : priceToNumber f.price_current f.price_normal = .inf := by
      cases hcc : f.price_current with
      | num p => rw [hcc] at hc; simp [isNumberType] at hc
      | nonfinite => rfl
      | str s =>
          cases hnn : f.price_normal with
          | num p => rw [hnn] at hn; simp [isNumberType] at hn
          | nonfinite => rfl
          | str t => rfl
          | null => rfl
      | null =>
          cases hnn : f.price_normal with
          | num p => rw [hnn] at hn; simp [isNumberType] at hn
          | nonfinite => rfl
          | str t => rfl
          | null => rfl
    have hcheck : maxPriceCheck st.maxPrice f = true := by
      unfold maxPriceCheck
      rw [hq, hinf, Bool.and_eq_true]
      exact ⟨bne_iff_ne.mpr hne, rfl⟩
    refine ⟨hinf, hcheck, ?_⟩
    unfold matchesFilters
    rw [hcheck]
    simp
  · intro l
    refine (sorted_sortedFlights .price .asc l).imp ?_
    intro a b hab ha
    rw [sortRel, jsCompare_asc_le] at hab
    simp only [sortVal, svLt] at hab
    rw [ha] at hab
    cases hb : priceToNumber b.price_current b.price_normal with
    | inf => rfl
    | fin p =>
        rw [hb] at hab
        rw [show decide ((EPrice.fin p).toWT < EPrice.inf.toWT) = true from
          decide_eq_true (WithTop.coe_lt_top p)] at hab
        exact Bool.noConfusion hab

/-- C10 witness: the non-number-price conjunct applied to a flight priced by
the string "990" and null, against maxPrice "500". -/
theorem claim_C10_witness :
    isNumberType c10f.price_current = false ∧
    isNumberType c10f.price_normal = false ∧
    ({ maxPrice := "500" } : FilterState).maxPrice ≠ "" ∧
    jsNumber "500" = JsNum.fin 500 ∧
    priceToNumber c10f.price_current c10f.price_normal = .inf ∧
    maxPriceCheck "500" c10f = true ∧
    matchesFilters 0 0 { maxPrice := "500" } c10f = false := by
  have h := claim_C10.1 c10f { maxPrice := "500" } 0 0 500 (by decide) (by decide)
    (by decide) (by decide)
  exact ⟨by decide, by decide, by decide, by decide, h.1, h.2.1, h.2.2⟩
